import Mathlib

/-!
Verification of the print snapshot and adaptive layout engine implemented in
`src/script.js` (and its embedded-page collaborator `src/child.js`).

The development shallowly embeds the algorithmic core of the script:

* the greedy column-slicing loop of `buildTableColumnSlices`;
* the scale-versus-slice decision of `prepareWideTablesForPrint`, the transform
  application of `scaleToPrintableWidth`, and the second-pass decision of
  `processWideTablesInCloneRoot` (pixel measurements are integers, the ratio is
  an exact rational);
* the region state touched by prepare/cleanup (`cleanupWideTablePrint`),
  modelling a DOM data attribute map explicitly, including the fact that the
  dataset property `printScaled` names the HTML attribute `data-print-scaled`
  while the CSS attribute selector `[data-printScaled]` names the (lowercased)
  attribute `data-printscaled`;
* the style harvest of `extractStylesFromDocAsync`, where each linked
  stylesheet task resolves to its fetched text or to the empty string, and the
  results are joined in document order and filtered by JS truthiness;
* the form-state materialisation of `materializeFormValues` and the canvas
  copy batch of `copyCanvasBitmapsAsync`, both pairing source and clone
  controls positionally up to the shorter length;
* the iframe height save/restore of `adjustSubframeHeightsForPrint` and
  `restoreSubframeHeights`, with JS truthiness of the saved dataset value.
-/

namespace PrintDemo

/-! ### Column slicing: `buildTableColumnSlices` (src/script.js 581-626) -/

/-- Effective width of a header cell.  The source reads
`cells.map((c) => c.offsetWidth || 100)` and again `widths[i] || 100` in the
loop: a zero (falsy) measurement falls back to the fixed default of 100. -/
def effW (w : Nat) : Nat := if w = 0 then 100 else w

/-- The greedy accumulation loop of `buildTableColumnSlices`, transcribed from

```js
let start = 0; let acc = 0;
for (let i = 0; i < colCount; i++) {
  const w = widths[i] || 100;
  if (acc + w > printable && i > start) { groups.push([start, i]); start = i; acc = 0; }
  acc += w;
  if (i === colCount - 1) groups.push([start, i + 1]);
}
```

The list argument is the remaining suffix of `widths`, `i` the current index,
`start` and `acc` the loop state. -/
def sliceGroupsAux (printable : Nat) : List Nat → Nat → Nat → Nat → List (Nat × Nat)
  | [], _, _, _ => []
  | [w0], i, start, acc =>
    if printable < acc + effW w0 ∧ start < i then [(start, i), (i, i + 1)]
    else [(start, i + 1)]
  | w0 :: w1 :: rest, i, start, acc =>
    if printable < acc + effW w0 ∧ start < i then
      (start, i) :: sliceGroupsAux printable (w1 :: rest) (i + 1) i (effW w0)
    else
      sliceGroupsAux printable (w1 :: rest) (i + 1) start (acc + effW w0)

/-- The `groups` array computed by `buildTableColumnSlices` from the header
cells' widths and the printable width (`document.documentElement.clientWidth`).
Each pair is a half-open column-index range `[from, to)`. -/
def buildTableColumnSlices (widths : List Nat) (printable : Nat) : List (Nat × Nat) :=
  sliceGroupsAux printable widths 0 0 0

/-- The `groups.forEach(...)` tail of `buildTableColumnSlices`: one synthesized
section per group is appended, in group order, to the print snapshot container
`#print-clone-root` (modelled as the ordered list of its slice sections). -/
def appendSliceSections (root : List (Nat × Nat)) (widths : List Nat) (printable : Nat) :
    List (Nat × Nat) :=
  root ++ buildTableColumnSlices widths printable

/-- `chainFrom s groups n` says the ranges in `groups` are ordered, contiguous,
non-empty and exactly cover the half-open interval `[s, n)`. -/
def chainFrom : Nat → List (Nat × Nat) → Nat → Prop
  | s, [], n => s = n
  | s, (a, b) :: rest, n => a = s ∧ s < b ∧ chainFrom b rest n

/-- Width of column `i` of the table, i.e. entry `i` of the header width list. -/
def nthW (widths : List Nat) (i : Nat) : Nat := (widths.drop i).headD 0

/-- Sum of the effective widths of columns `s, s+1, ..., e-1`. -/
def effRange (widths : List Nat) (s e : Nat) : Nat :=
  (((widths.drop s).take (e - s)).map effW).sum

/-- Boundary soundness: every group except the last one closed only because
adding the first column of the next group would have exceeded the printable
width. -/
def groupsSound (widths : List Nat) (printable : Nat) : List (Nat × Nat) → Prop
  | [] => True
  | [_] => True
  | (s, e) :: g2 :: gs =>
    printable < effRange widths s e + effW (nthW widths e)
      ∧ groupsSound widths printable (g2 :: gs)

/-! ### Scale / slice decision (`prepareWideTablesForPrint` 531-556,
`scaleToPrintableWidth` 561-576, `processWideTablesInCloneRoot` 647-677) -/

/-- Render policy chosen for a printable region. -/
inductive RenderPolicy where
  | slice
  | scale
deriving DecidableEq

/-- Ratio computed by `prepareWideTablesForPrint`:
`const ratio = actual > 0 ? printable / actual : 1`.  Pixel measurements are
integers; the quotient is modelled exactly in `ℚ`. -/
def prepareRatioVal (printable actual : ℕ) : ℚ :=
  if 0 < actual then (printable : ℚ) / actual else 1

/-- Ratio recomputed by `processWideTablesInCloneRoot` over a snapshot table:
`const ratio = actual > 0 ? printable / actual : 1` (same expression). -/
def processRatioVal (printable actual : ℕ) : ℚ :=
  if 0 < actual then (printable : ℚ) / actual else 1

/-- Decision taken by `prepareWideTablesForPrint`: `ratio < 0.625` slices,
anything else scales. -/
def prepareDecision (printable actual : ℕ) : RenderPolicy :=
  if prepareRatioVal printable actual < 5 / 8 then RenderPolicy.slice
  else RenderPolicy.scale

/-- Decision taken by `processWideTablesInCloneRoot` for a table inside the
freshly built snapshot: `ratio < 0.625` slices, anything else is the scale
branch (which applies a transform only when `ratio < 1`). -/
def processCloneDecision (printable actual : ℕ) : RenderPolicy :=
  if processRatioVal printable actual < 5 / 8 then RenderPolicy.slice
  else RenderPolicy.scale

/-- Ratio recomputed inside `scaleToPrintableWidth`:
`Math.min(1, printable / Math.max(1, actual))`. -/
def scaleRatioVal (printable actual : ℕ) : ℚ :=
  min 1 ((printable : ℚ) / max 1 (actual : ℚ))

/-- `scaleToPrintableWidth` applies a transform exactly when its recomputed
ratio is strictly below 1 (`if (ratio < 1) { ...transform... }`). -/
def scaleAppliesTransform (printable actual : ℕ) : Bool :=
  decide (scaleRatioVal printable actual < 1)

/-- Slicing performed by `prepareWideTablesForPrint` via
`buildTableColumnSlices(wrap)` on the live table of a visible panel. -/
def prepareSliceGroups (widths : List Nat) (printable : Nat) : List (Nat × Nat) :=
  buildTableColumnSlices widths printable

/-- Slicing performed by `processWideTablesInCloneRoot` via
`buildTableColumnSlices(wrap)` on the re-wrapped clone of a snapshot table. -/
def processSliceGroups (widths : List Nat) (printable : Nat) : List (Nat × Nat) :=
  buildTableColumnSlices widths printable

/-! ### Region prepare / cleanup state (`cleanupWideTablePrint` 630-643) -/

/-- Observable style and data-attribute state of a `.print-hscroll` region.
`transform = none` models `style.transform = ''` and `some r` models
`scale(r)`; `originTopLeft` models `style.transformOrigin = 'top left'`
versus `''`; `dataAttrs` is the element's data-attribute map keyed by the
literal serialized HTML attribute name. -/
structure Region where
  transform : Option ℚ
  originTopLeft : Bool
  dataAttrs : List (String × String)
deriving DecidableEq

/-- `el.setAttribute(k, v)` on the attribute map. -/
def setAttr (attrs : List (String × String)) (k v : String) : List (String × String) :=
  if attrs.any (fun p => p.1 == k) then
    attrs.map (fun p => if p.1 == k then (k, v) else p)
  else attrs ++ [(k, v)]

/-- `el.removeAttribute(k)` on the attribute map. -/
def removeAttr (attrs : List (String × String)) (k : String) : List (String × String) :=
  attrs.filter (fun p => !(p.1 == k))

/-- `el.getAttribute(k)` on the attribute map. -/
def getAttr (attrs : List (String × String)) (k : String) : Option String :=
  (attrs.find? (fun p => p.1 == k)).map Prod.snd

/-- `wrap.dataset.printSliced = '1'` in `prepareWideTablesForPrint`: the
dataset property `printSliced` serializes to the attribute
`data-print-sliced`. -/
def applySliceMark (r : Region) : Region :=
  { r with dataAttrs := setAttr r.dataAttrs "data-print-sliced" "1" }

/-- `scaleToPrintableWidth(el)`: when the recomputed ratio is below 1, set
`dataset.printScaled = '1'` (serialized attribute `data-print-scaled`), the
top-left transform origin and the scale transform; otherwise leave the
element untouched. -/
def scaleToPrintableWidth (printable actual : ℕ) (r : Region) : Region :=
  if scaleRatioVal printable actual < 1 then
    { transform := some (scaleRatioVal printable actual),
      originTopLeft := true,
      dataAttrs := setAttr r.dataAttrs "data-print-scaled" "1" }
  else r

/-- Effect of `prepareWideTablesForPrint` on one visible region's own state:
the slice branch marks the region (its slice sections land in the snapshot
container), otherwise `scaleToPrintableWidth` runs. -/
def prepareRegion (printable actual : ℕ) (r : Region) : Region :=
  if prepareRatioVal printable actual < 5 / 8 then applySliceMark r
  else scaleToPrintableWidth printable actual r

/-- `cleanupWideTablePrint`: its first query selector is
`'.print-hscroll[data-printScaled="1"]'`; in an HTML document the selector's
attribute name is ASCII-lowercased, so it matches the attribute literally
named `data-printscaled` (while `dataset.printScaled` writes the attribute
`data-print-scaled`).  Matches get their transform and origin cleared and
`dataset.printScaled` deleted.  The second selector
`'.print-hscroll[data-print-sliced="1"]'` matches the attribute written by
`dataset.printSliced` and deletes it. -/
def cleanupWideTablePrint (r : Region) : Region :=
  let r1 := if getAttr r.dataAttrs "data-printscaled" = some "1" then
      { transform := none, originTopLeft := false,
        dataAttrs := removeAttr r.dataAttrs "data-print-scaled" }
    else r
  if getAttr r1.dataAttrs "data-print-sliced" = some "1" then
    { r1 with dataAttrs := removeAttr r1.dataAttrs "data-print-sliced" }
  else r1

/-- A region with no transform and no data attributes (the pre-print state). -/
def emptyRegion : Region :=
  { transform := none, originTopLeft := false, dataAttrs := [] }

/-- One `triggerPrint` preparation pass over a single visible wide region:
the state is the snapshot container's ordered slice-section list together
with the region's own state.  `triggerPrint` has no lifecycle guard, so a
re-entrant print request runs this pass again unconditionally. -/
def prepareWideTablesForPrint (printable actual : ℕ) (widths : List Nat)
    (st : List (Nat × Nat) × Region) : List (Nat × Nat) × Region :=
  if prepareRatioVal printable actual < 5 / 8 then
    (appendSliceSections st.1 widths printable, applySliceMark st.2)
  else
    (st.1, scaleToPrintableWidth printable actual st.2)

/-! ### Style harvest (`extractStylesFromDocAsync` 434-456) -/

/-- Outcome of one linked-stylesheet task in `extractStylesFromDocAsync`:
a missing `href`, a cross-origin URL, a non-ok HTTP response and a thrown
fetch each resolve the task to `''`; a successful same-origin fetch resolves
to the stylesheet text (`css || ''`). -/
inductive FetchOutcome where
  | noHref
  | crossOrigin
  | httpNotOk
  | fetchFailed
  | fetched (css : String)
deriving DecidableEq

/-- The string a single link task resolves with. -/
def linkCss : FetchOutcome → String
  | FetchOutcome.fetched css => css
  | _ => ""

/-- `extractStylesFromDocAsync`: the inline `<style>` texts in document
order (`texts`), followed by the link task results in document order
filtered by JS truthiness (`texts.concat(ext.filter(Boolean))`). -/
def extractStylesFromDoc (inlineTexts : List String) (links : List FetchOutcome) :
    List String :=
  inlineTexts ++ (links.map linkCss).filter (fun s => !(s == ""))

/-! ### Form state materialisation (`materializeFormValues` 461-490) -/

/-- Tag of a form control matched by `'input, select, textarea'`. -/
inductive CtlTag where
  | input
  | textarea
  | select
deriving DecidableEq

/-- One `<option>` of a select: its value, the live `selected` property and
the serialized `selected` attribute. -/
structure SelOption where
  value : String
  selectedProp : Bool
  selectedAttr : Bool
deriving DecidableEq

/-- Observable state of one form control: live properties (`checked`,
`value`), serialized attributes (`checked`, `value`), text content (for
textareas) and the option list (for selects). -/
structure Ctl where
  tag : CtlTag
  typeAttr : Option String
  checkedProp : Bool
  checkedAttr : Bool
  valueProp : String
  valueAttr : Option String
  textContent : String
  options : List SelOption
deriving DecidableEq

/-- `const type = o.getAttribute('type') || 'text'`. -/
def effType (o : Ctl) : String :=
  match o.typeAttr with
  | none => "text"
  | some t => if t = "" then "text" else t

/-- One iteration of the `materializeFormValues` loop: the source control `o`
is inspected and the paired clone control `c` is updated.  Checkbox/radio
inputs copy `checked` as live property and serialized attribute; other
inputs copy `value` as property and attribute; textareas copy `value` as
property and text content; selects copy `value` and re-mark every option by
value equality with the source's value. -/
def materializeOne (o c : Ctl) : Ctl :=
  match o.tag with
  | CtlTag.input =>
    if effType o = "checkbox" ∨ effType o = "radio" then
      { c with checkedProp := o.checkedProp, checkedAttr := o.checkedProp }
    else
      { c with valueProp := o.valueProp, valueAttr := some o.valueProp }
  | CtlTag.textarea =>
    { c with valueProp := o.valueProp, textContent := o.valueProp }
  | CtlTag.select =>
    { c with valueProp := o.valueProp,
             options := c.options.map (fun opt =>
               { opt with selectedProp := opt.value == o.valueProp,
                          selectedAttr := opt.value == o.valueProp }) }

/-- `materializeFormValues`: the i-th source control is paired with the i-th
clone control in traversal order for `i < min(orig.length, clone.length)`
(`const n = Math.min(origInputs.length, clonedInputs.length)`); clone
controls beyond the paired prefix are left untouched. -/
def materializeFormValues (orig clone : List Ctl) : List Ctl :=
  List.zipWith materializeOne orig clone ++ clone.drop orig.length

/-- A checkbox that is checked in the source document. -/
def srcCheckbox : Ctl :=
  { tag := CtlTag.input, typeAttr := some "checkbox", checkedProp := true,
    checkedAttr := true, valueProp := "on", valueAttr := none,
    textContent := "", options := [] }

/-- The raw structural clone of that checkbox, carrying a stale unchecked
state. -/
def rawCloneCheckbox : Ctl :=
  { srcCheckbox with checkedProp := false, checkedAttr := false }

/-- A select with three options whose second option (value `medium`) is the
source's current selection (`o.value = 'medium'`). -/
def srcSelect : Ctl :=
  { tag := CtlTag.select, typeAttr := none, checkedProp := false,
    checkedAttr := false, valueProp := "medium", valueAttr := none,
    textContent := "",
    options := [{ value := "low", selectedProp := false, selectedAttr := false },
                { value := "medium", selectedProp := true, selectedAttr := true },
                { value := "high", selectedProp := false, selectedAttr := false }] }

/-- The raw structural clone of that select, with a stale selection mark on
option 1. -/
def rawCloneSelect : Ctl :=
  { srcSelect with
    valueProp := "low",
    options := [{ value := "low", selectedProp := true, selectedAttr := true },
                { value := "medium", selectedProp := false, selectedAttr := false },
                { value := "high", selectedProp := false, selectedAttr := false }] }

/-! ### Canvas bitmap copy (`copyCanvasBitmapsAsync` 495-516) -/

/-- A node in the cloned subtree at a canvas position: still a canvas, or
the replacement image produced from a successful `toDataURL`. -/
inductive SnapNode where
  | canvasNode (name : String)
  | imgNode (src : String)
deriving DecidableEq

/-- `copyCanvasBitmapsAsync`: source canvases are paired positionally with
clone canvases up to the shorter length; `src.toDataURL` either yields a
data URL (the clone canvas is replaced by an image node) or throws (that one
canvas is skipped and the loop continues).  Clone canvases beyond the paired
prefix remain canvases. -/
def copyCanvasBitmaps (orig : List (Option String)) (clone : List String) :
    List SnapNode :=
  List.zipWith
    (fun o c =>
      match o with
      | some url => SnapNode.imgNode url
      | none => SnapNode.canvasNode c)
    orig clone
  ++ (clone.drop orig.length).map SnapNode.canvasNode

/-! ### Iframe height save / restore (`adjustSubframeHeightsForPrint`
290-318, `restoreSubframeHeights` 322-344) -/

/-- Height state of one iframe: its inline `style.height` and the dataset
marker `originalHeight` (`none` models an absent attribute). -/
structure Frame where
  styleHeight : String
  originalHeight : Option String
deriving DecidableEq

/-- JS truthiness of `f.dataset.originalHeight`: an absent attribute reads
as `undefined` (falsy) and the empty string is falsy. -/
def jsTruthy : Option String → Bool
  | none => false
  | some s => if s = "" then false else true

/-- One iframe in `adjustSubframeHeightsForPrint`:
`if (!f.dataset.originalHeight) f.dataset.originalHeight = f.style.height || '';`
then `f.style.height = fullHeight + 'px'`. -/
def adjustFrame (fullHeight : ℕ) (f : Frame) : Frame :=
  { styleHeight := toString fullHeight ++ "px",
    originalHeight :=
      if jsTruthy f.originalHeight then f.originalHeight else some f.styleHeight }

/-- One iframe in `restoreSubframeHeights`: if the marker is present (even
empty), write it back to `style.height` and delete it. -/
def restoreFrame (f : Frame) : Frame :=
  match f.originalHeight with
  | some orig => { styleHeight := orig, originalHeight := none }
  | none => f

end PrintDemo

namespace PrintDemo

theorem nthW_of_drop {full : List Nat} {i w0 : Nat} {rest : List Nat}
    (h : full.drop i = w0 :: rest) : nthW full i = w0 := by
  simp [nthW, h]

theorem lt_length_of_drop {full : List Nat} {i w0 : Nat} {rest : List Nat}
    (h : full.drop i = w0 :: rest) : i < full.length := by
  have hlen := congrArg List.length h
  simp [List.length_drop] at hlen
  omega

theorem drop_succ_of_drop {full : List Nat} {i w0 : Nat} {rest : List Nat}
    (h : full.drop i = w0 :: rest) : full.drop (i + 1) = rest := by
  have h1 : full.drop (i + 1) = (full.drop i).drop 1 := by
    rw [List.drop_drop]
  rw [h1, h]
  rfl

theorem getElem?_eq_nthW {full : List Nat} {i : Nat} (hi : i < full.length) :
    full[i]? = some (nthW full i) := by
  have h0 : (full.drop i)[0]? = full[i]? := by
    rw [List.getElem?_drop]
    simp
  cases hd : full.drop i with
  | nil =>
    have hlen := congrArg List.length hd
    simp [List.length_drop] at hlen
    omega
  | cons a t =>
    rw [← h0, hd]
    simp [nthW_of_drop hd]

theorem effRange_self (full : List Nat) (s : Nat) : effRange full s s = 0 := by
  simp [effRange]

theorem effRange_succ {full : List Nat} {s i : Nat} (hsi : s ≤ i) (hi : i < full.length) :
    effRange full s (i + 1) = effRange full s i + effW (nthW full i) := by
  unfold effRange
  have h1 : i + 1 - s = (i - s) + 1 := by omega
  rw [h1, List.take_succ, List.getElem?_drop]
  have h2 : s + (i - s) = i := by omega
  rw [h2, getElem?_eq_nthW hi]
  simp

theorem effRange_single {full : List Nat} {i : Nat} (hi : i < full.length) :
    effRange full i (i + 1) = effW (nthW full i) := by
  rw [effRange_succ (Nat.le_refl i) hi, effRange_self]
  omega

theorem sliceGroupsAux_ne_nil (printable : Nat) (rest : List Nat) :
    ∀ w0 i start acc, sliceGroupsAux printable (w0 :: rest) i start acc ≠ [] := by
  induction rest with
  | nil =>
    intro w0 i start acc
    simp only [sliceGroupsAux]
    split <;> simp
  | cons w1 rs ih =>
    intro w0 i start acc
    simp only [sliceGroupsAux]
    split
    · simp
    · exact ih w1 (i + 1) start (acc + effW w0)

theorem sliceGroupsAux_chain (printable : Nat) (rest : List Nat) :
    ∀ w0 i start acc, start ≤ i →
      chainFrom start (sliceGroupsAux printable (w0 :: rest) i start acc)
        (i + rest.length + 1) := by
  induction rest with
  | nil =>
    intro w0 i start acc hsi
    simp only [sliceGroupsAux, List.length_nil]
    by_cases h : printable < acc + effW w0 ∧ start < i
    · rw [if_pos h]
      exact ⟨rfl, h.2, rfl, Nat.lt_succ_self i, rfl⟩
    · rw [if_neg h]
      exact ⟨rfl, Nat.lt_succ_of_le hsi, rfl⟩
  | cons w1 rs ih =>
    intro w0 i start acc hsi
    simp only [sliceGroupsAux, List.length_cons]
    by_cases h : printable < acc + effW w0 ∧ start < i
    · rw [if_pos h]
      have hch := ih w1 (i + 1) i (effW w0) (Nat.le_succ i)
      have harith : i + 1 + rs.length + 1 = i + (rs.length + 1) + 1 := by omega
      rw [harith] at hch
      exact ⟨rfl, h.2, hch⟩
    · rw [if_neg h]
      have hch := ih w1 (i + 1) start (acc + effW w0) (Nat.le_succ_of_le hsi)
      have harith : i + 1 + rs.length + 1 = i + (rs.length + 1) + 1 := by omega
      rw [harith] at hch
      exact hch

theorem sliceGroupsAux_sound (printable : Nat) (full : List Nat) (rest : List Nat) :
    ∀ w0 i start acc, start ≤ i → full.drop i = w0 :: rest →
      acc = effRange full start i →
      groupsSound full printable (sliceGroupsAux printable (w0 :: rest) i start acc) := by
  induction rest with
  | nil =>
    intro w0 i start acc hsi hdrop hacc
    simp only [sliceGroupsAux]
    by_cases h : printable < acc + effW w0 ∧ start < i
    · rw [if_pos h]
      refine ⟨?_, trivial⟩
      rw [← hacc, nthW_of_drop hdrop]
      exact h.1
    · rw [if_neg h]
      trivial
  | cons w1 rs ih =>
    intro w0 i start acc hsi hdrop hacc
    have hlen : i < full.length := lt_length_of_drop hdrop
    have hdrop1 : full.drop (i + 1) = w1 :: rs := drop_succ_of_drop hdrop
    simp only [sliceGroupsAux]
    by_cases h : printable < acc + effW w0 ∧ start < i
    · rw [if_pos h]
      have hacc1 : effW w0 = effRange full i (i + 1) := by
        rw [effRange_single hlen, nthW_of_drop hdrop]
      have hrec := ih w1 (i + 1) i (effW w0) (Nat.le_succ i) hdrop1 hacc1
      have hne := sliceGroupsAux_ne_nil printable rs w1 (i + 1) i (effW w0)
      cases haux : sliceGroupsAux printable (w1 :: rs) (i + 1) i (effW w0) with
      | nil => exact absurd haux hne
      | cons g t =>
        rw [haux] at hrec
        refine ⟨?_, hrec⟩
        rw [← hacc, nthW_of_drop hdrop]
        exact h.1
    · rw [if_neg h]
      have hacc1 : acc + effW w0 = effRange full start (i + 1) := by
        rw [effRange_succ hsi hlen, ← hacc, nthW_of_drop hdrop]
      exact ih w1 (i + 1) start (acc + effW w0) (Nat.le_succ_of_le hsi) hdrop1 hacc1

theorem sliceGroupsAux_head_close (printable : Nat) (rest : List Nat) (w0 i start acc : Nat)
    (h : printable < acc + effW w0) (hlt : start < i) :
    ∃ t, sliceGroupsAux printable (w0 :: rest) i start acc = (start, i) :: t := by
  cases rest with
  | nil =>
    refine ⟨[(i, i + 1)], ?_⟩
    simp only [sliceGroupsAux]
    rw [if_pos ⟨h, hlt⟩]
  | cons w1 rs =>
    refine ⟨sliceGroupsAux printable (w1 :: rs) (i + 1) i (effW w0), ?_⟩
    simp only [sliceGroupsAux]
    rw [if_pos ⟨h, hlt⟩]

theorem sliceGroupsAux_mem_wide (printable : Nat) (full : List Nat) (rest : List Nat) :
    ∀ w0 i start acc, start ≤ i → full.drop i = w0 :: rest →
      ∀ j, i ≤ j → j < full.length → printable < effW (nthW full j) →
        (j, j + 1) ∈ sliceGroupsAux printable (w0 :: rest) i start acc := by
  induction rest with
  | nil =>
    intro w0 i start acc hsi hdrop j hij hj hw
    have hlen := congrArg List.length hdrop
    simp [List.length_drop] at hlen
    have hji : j = i := by omega
    subst hji
    rw [nthW_of_drop hdrop] at hw
    simp only [sliceGroupsAux]
    by_cases hlt : start < j
    · have h : printable < acc + effW w0 ∧ start < j :=
        ⟨Nat.lt_of_lt_of_le hw (Nat.le_add_left _ acc), hlt⟩
      rw [if_pos h]
      simp
    · have hstart : start = j := by omega
      subst hstart
      rw [if_neg (by omega)]
      simp
  | cons w1 rs ih =>
    intro w0 i start acc hsi hdrop j hij hj hw
    have hdrop1 : full.drop (i + 1) = w1 :: rs := drop_succ_of_drop hdrop
    rcases Nat.eq_or_lt_of_le hij with hji | hji
    · -- j = i : column i is wider than the printable width
      subst hji
      rw [nthW_of_drop hdrop] at hw
      simp only [sliceGroupsAux]
      by_cases hlt : start < i
      · have h : printable < acc + effW w0 ∧ start < i :=
          ⟨Nat.lt_of_lt_of_le hw (Nat.le_add_left _ acc), hlt⟩
        rw [if_pos h]
        obtain ⟨t, ht⟩ := sliceGroupsAux_head_close printable rs w1 (i + 1) i (effW w0)
          (Nat.lt_of_lt_of_le hw (Nat.le_add_right _ _)) (Nat.lt_succ_self i)
        rw [ht]
        exact List.mem_cons_of_mem _ (List.mem_cons_self _ _)
      · have hstart : start = i := by omega
        subst hstart
        rw [if_neg (by omega)]
        obtain ⟨t, ht⟩ := sliceGroupsAux_head_close printable rs w1 (start + 1) start
          (acc + effW w0) (by omega) (Nat.lt_succ_self start)
        rw [ht]
        exact List.mem_cons_self _ _
    · -- i < j : recurse
      simp only [sliceGroupsAux]
      by_cases h : printable < acc + effW w0 ∧ start < i
      · rw [if_pos h]
        exact List.mem_cons_of_mem _
          (ih w1 (i + 1) i (effW w0) (Nat.le_succ i) hdrop1 j hji hj hw)
      · rw [if_neg h]
        exact ih w1 (i + 1) start (acc + effW w0) (Nat.le_succ_of_le hsi) hdrop1 j hji hj hw

/-- Claim C1: for every header-cell width list and printable width, the groups
computed by `buildTableColumnSlices` partition `[0, columnCount)` into ordered,
contiguous, disjoint, non-empty half-open ranges with no gaps or overlaps
(`chainFrom 0 _ columnCount`); a group closes only where adding the next column
would exceed the printable width (`groupsSound`); a single column wider than
the printable width forms its own group; and for printable width 1000 and
widths `[300, 300, 300, 300]` the groups are `[0,3)` and `[3,4)`. -/
theorem slice_groups_partition (widths : List Nat) (printable : Nat) :
    chainFrom 0 (buildTableColumnSlices widths printable) widths.length
    ∧ groupsSound widths printable (buildTableColumnSlices widths printable)
    ∧ (∀ j, j < widths.length → printable < effW (nthW widths j) →
        (j, j + 1) ∈ buildTableColumnSlices widths printable)
    ∧ buildTableColumnSlices [300, 300, 300, 300] 1000 = [(0, 3), (3, 4)] := by
  refine ⟨?_, ?_, ?_, by decide⟩
  · cases widths with
    | nil => simp [buildTableColumnSlices, sliceGroupsAux, chainFrom]
    | cons w ws =>
      have h := sliceGroupsAux_chain printable ws w 0 0 0 (Nat.le_refl 0)
      simpa [buildTableColumnSlices] using h
  · cases widths with
    | nil => simp [buildTableColumnSlices, sliceGroupsAux, groupsSound]
    | cons w ws =>
      exact sliceGroupsAux_sound printable (w :: ws) ws w 0 0 0 (Nat.le_refl 0)
        (by simp) (by simp [effRange])
  · cases widths with
    | nil =>
      intro j hj hw
      simp at hj
    | cons w ws =>
      intro j hj hw
      exact sliceGroupsAux_mem_wide printable (w :: ws) ws w 0 0 0 (Nat.le_refl 0)
        (by simp) j (Nat.zero_le j) hj hw

/-- Witness for C1 at a concrete wide column: column 0 of widths `[2000, 300]`
with printable width 1000 forms its own group `[0, 1)`. -/
theorem slice_groups_partition_wit : (0, 1) ∈ buildTableColumnSlices [2000, 300] 1000 :=
  (slice_groups_partition [2000, 300] 1000).2.2.1 0 (by decide) (by decide)

/-- Claim C10: with no header row or a header row with zero cells
(`columnCount = 0`) the greedy loop produces an empty group list, no slice
section is appended to the print snapshot container, and the function returns
without error. -/
theorem empty_header_no_slices (printable : Nat) (root : List (Nat × Nat)) :
    buildTableColumnSlices [] printable = []
    ∧ appendSliceSections root [] printable = root := by
  exact ⟨rfl, by simp [appendSliceSections, buildTableColumnSlices, sliceGroupsAux]⟩

/-- Claim C2 counterexample: with `printableWidth = 0` and `actualWidth = 0`
the ratio is defined to be 1 (so `ratio ≥ 1`) and the Scale branch is taken,
yet `scaleToPrintableWidth` recomputes `min(1, 0 / max(1, 0)) = 0 < 1` and
does apply a transform (`scale(0)`), contradicting the claim that a ratio of
at least 1 applies no transform. -/
theorem scale_noop_violated_at_zero :
    prepareRatioVal 0 0 = 1 ∧ prepareDecision 0 0 = RenderPolicy.scale
    ∧ scaleAppliesTransform 0 0 = true := by
  have h1 : prepareRatioVal 0 0 = 1 := by simp [prepareRatioVal]
  refine ⟨h1, ?_, ?_⟩
  · unfold prepareDecision
    rw [h1, if_neg (by norm_num)]
  · have h2 : scaleRatioVal 0 0 = 0 := by
      unfold scaleRatioVal
      rw [show ((0 : ℕ) : ℚ) = 0 from by norm_num,
        show max (1 : ℚ) 0 = 1 from by norm_num, div_one]
      norm_num
    unfold scaleAppliesTransform
    rw [h2]
    norm_num

/-- Claim C2 (amended): the adapter computes `ratio = printableWidth /
actualWidth` with `ratio = 1` when `actualWidth ≤ 0`, chooses Slice exactly
when `ratio < 0.625` and Scale otherwise; a ratio of exactly `0.625`
(printable 1000, actual 1600) selects Scale; and when `ratio ≥ 1` and
`printableWidth > 0` the Scale branch applies no transform. -/
theorem ratio_decision_rule (p a : ℕ) :
    (a = 0 → prepareRatioVal p a = 1)
    ∧ (0 < a → prepareRatioVal p a = (p : ℚ) / a)
    ∧ (prepareDecision p a = RenderPolicy.slice ↔ prepareRatioVal p a < 5 / 8)
    ∧ prepareRatioVal 1000 1600 = 5 / 8
    ∧ prepareDecision 1000 1600 = RenderPolicy.scale
    ∧ (1 ≤ prepareRatioVal p a → 0 < p → scaleAppliesTransform p a = false) := by
  have hmid : prepareRatioVal 1000 1600 = 5 / 8 := by
    unfold prepareRatioVal
    norm_num
  refine ⟨?_, ?_, ?_, hmid, ?_, ?_⟩
  · intro h
    simp [prepareRatioVal, h]
  · intro h
    simp [prepareRatioVal, h]
  · unfold prepareDecision
    by_cases h : prepareRatioVal p a < 5 / 8
    · simp [h]
    · simp [h]
  · unfold prepareDecision
    rw [hmid, if_neg (by norm_num)]
  · intro hr hp
    have hp1 : (1 : ℚ) ≤ (p : ℚ) := by exact_mod_cast hp
    unfold scaleAppliesTransform
    rcases Nat.eq_zero_or_pos a with ha | ha
    · subst ha
      have hs : scaleRatioVal p 0 = 1 := by
        unfold scaleRatioVal
        rw [show ((0 : ℕ) : ℚ) = 0 from by norm_num,
          show max (1 : ℚ) 0 = 1 from by norm_num, div_one, min_eq_left hp1]
      rw [hs]
      norm_num
    · have ha1 : (1 : ℚ) ≤ (a : ℚ) := by exact_mod_cast ha
      unfold prepareRatioVal at hr
      rw [if_pos ha] at hr
      have hs : scaleRatioVal p a = 1 := by
        unfold scaleRatioVal
        rw [max_eq_right ha1, min_eq_left hr]
      rw [hs]
      norm_num

/-- Witness for the amended C2 at printable 1000, actual 800: the ratio is
5/4 ≥ 1 and the Scale branch applies no transform. -/
theorem ratio_decision_rule_wit : scaleAppliesTransform 1000 800 = false :=
  (ratio_decision_rule 1000 800).2.2.2.2.2
    (by unfold prepareRatioVal; norm_num) (by norm_num)

/-- Claim C7: the decision rule and the column-slicing algorithm applied by
`processWideTablesInCloneRoot` to tables inside the freshly built snapshot
are identical to the ones applied by `prepareWideTablesForPrint` to live
panels: for the same measured widths and printable width both passes make
the same Scale/Slice decision and produce the same column groups; moreover,
for a measurable region (`actual > 0`) both scale paths apply a transform
under the same condition (`ratio < 1`) and with the same factor. -/
theorem clone_pass_matches_prepare (p a : ℕ) (widths : List Nat) :
    processCloneDecision p a = prepareDecision p a
    ∧ processSliceGroups widths p = prepareSliceGroups widths p
    ∧ (0 < a → (scaleRatioVal p a < 1 ↔ processRatioVal p a < 1))
    ∧ (0 < a → processRatioVal p a < 1 → scaleRatioVal p a = processRatioVal p a) := by
  refine ⟨rfl, rfl, ?_, ?_⟩
  · intro ha
    have ha1 : (1 : ℚ) ≤ (a : ℚ) := by exact_mod_cast ha
    unfold scaleRatioVal processRatioVal
    rw [max_eq_right ha1, if_pos ha]
    constructor
    · intro h
      rcases min_lt_iff.mp h with h1 | h1
      · exact absurd h1 (lt_irrefl 1)
      · exact h1
    · intro h
      exact min_lt_iff.mpr (Or.inr h)
  · intro ha h
    have ha1 : (1 : ℚ) ≤ (a : ℚ) := by exact_mod_cast ha
    unfold processRatioVal at h ⊢
    rw [if_pos ha] at h ⊢
    unfold scaleRatioVal
    rw [max_eq_right ha1, min_eq_right (le_of_lt h)]

/-- Witness for C7 at printable 800, actual 1000: both passes would apply the
same scale factor 4/5. -/
theorem clone_pass_matches_prepare_wit :
    scaleRatioVal 800 1000 = processRatioVal 800 1000 :=
  (clone_pass_matches_prepare 800 1000 []).2.2.2 (by norm_num)
    (by unfold processRatioVal; norm_num)

/-- Claim C4 is violated by the code (code bug): preparing a region with
printable width 1000 and actual width 1200 applies the Scale policy
(transform `scale(5/6)` and marker `data-print-scaled`), but
`cleanupWideTablePrint` leaves that region completely unchanged — its
selector `[data-printScaled="1"]` queries the lowercased attribute
`data-printscaled`, which is never the attribute `data-print-scaled` that
`dataset.printScaled` writes — so cleanup after prepare is not the identity
restoration the claim (and the code's own comment) describes. -/
theorem cleanup_misses_scaled_region :
    prepareRegion 1000 1200 emptyRegion ≠ emptyRegion
    ∧ cleanupWideTablePrint (prepareRegion 1000 1200 emptyRegion)
        = prepareRegion 1000 1200 emptyRegion
    ∧ (prepareRegion 1000 1200 emptyRegion).transform = some (5 / 6)
    ∧ getAttr (prepareRegion 1000 1200 emptyRegion).dataAttrs "data-print-scaled"
        = some "1" := by
  have hratio : prepareRatioVal 1000 1200 = 5 / 6 := by
    unfold prepareRatioVal
    norm_num
  have hscale : scaleRatioVal 1000 1200 = 5 / 6 := by
    unfold scaleRatioVal
    rw [show max (1 : ℚ) ((1200 : ℕ) : ℚ) = 1200 from by norm_num,
      min_eq_right (by norm_num : ((1000 : ℕ) : ℚ) / 1200 ≤ 1)]
    norm_num
  have hprep : prepareRegion 1000 1200 emptyRegion
      = { transform := some (5 / 6), originTopLeft := true,
          dataAttrs := [("data-print-scaled", "1")] } := by
    unfold prepareRegion
    rw [hratio, if_neg (by norm_num)]
    unfold scaleToPrintableWidth
    rw [hscale, if_pos (by norm_num)]
    rfl
  refine ⟨?_, ?_, ?_, ?_⟩
  · rw [hprep]
    simp [emptyRegion]
  · rw [hprep]
    rfl
  · rw [hprep]
  · rw [hprep]
    rfl

/-- Claim C5 is violated by the code (code bug): `triggerPrint` has no
lifecycle guard, so a second print request while a cycle is in preparation
re-runs the wide-table pass and appends a duplicate copy of every slice
section to the snapshot container.  Concretely, with printable width 1000,
a sliced table of actual width 2000 and header widths `[600, 600, 800]`, the
first pass appends three sections and the second pass appends three more. -/
theorem second_trigger_duplicates_sections :
    (prepareWideTablesForPrint 1000 2000 [600, 600, 800] ([], emptyRegion)).1
      = [(0, 1), (1, 2), (2, 3)]
    ∧ (prepareWideTablesForPrint 1000 2000 [600, 600, 800]
        (prepareWideTablesForPrint 1000 2000 [600, 600, 800] ([], emptyRegion))).1
      = [(0, 1), (1, 2), (2, 3), (0, 1), (1, 2), (2, 3)]
    ∧ (prepareWideTablesForPrint 1000 2000 [600, 600, 800]
        (prepareWideTablesForPrint 1000 2000 [600, 600, 800] ([], emptyRegion))).1
      ≠ (prepareWideTablesForPrint 1000 2000 [600, 600, 800] ([], emptyRegion)).1 := by
  have hlt : prepareRatioVal 1000 2000 < 5 / 8 := by
    unfold prepareRatioVal
    norm_num
  have h1 : prepareWideTablesForPrint 1000 2000 [600, 600, 800] ([], emptyRegion)
      = ([(0, 1), (1, 2), (2, 3)], applySliceMark emptyRegion) := by
    unfold prepareWideTablesForPrint
    rw [if_pos hlt]
    rw [show appendSliceSections [] [600, 600, 800] 1000 = [(0, 1), (1, 2), (2, 3)]
      from by decide]
  have h2 : prepareWideTablesForPrint 1000 2000 [600, 600, 800]
        ([(0, 1), (1, 2), (2, 3)], applySliceMark emptyRegion)
      = ([(0, 1), (1, 2), (2, 3), (0, 1), (1, 2), (2, 3)],
          applySliceMark (applySliceMark emptyRegion)) := by
    unfold prepareWideTablesForPrint
    rw [if_pos hlt]
    rw [show appendSliceSections [(0, 1), (1, 2), (2, 3)] [600, 600, 800] 1000
      = [(0, 1), (1, 2), (2, 3), (0, 1), (1, 2), (2, 3)] from by decide]
  refine ⟨?_, ?_, ?_⟩
  · rw [h1]
  · rw [h1, h2]
  · rw [h1, h2]
    decide

theorem getD_drop {α : Type} (l : List α) (n i : ℕ) (d : α) :
    (l.drop n).getD i d = l.getD (n + i) d := by
  induction l generalizing n with
  | nil => simp
  | cons a t ih =>
    cases n with
    | zero => simp
    | succ m =>
      simp only [List.drop_succ_cons]
      rw [ih m]
      have harith : m + 1 + i = (m + i) + 1 := by omega
      rw [harith, List.getD_cons_succ]

theorem getD_zipWith {α β γ : Type} (f : α → β → γ) (d1 : α) (d2 : β) (d3 : γ) :
    ∀ (l1 : List α) (l2 : List β) (i : ℕ), i < l1.length → i < l2.length →
      (List.zipWith f l1 l2).getD i d3 = f (l1.getD i d1) (l2.getD i d2) := by
  intro l1
  induction l1 with
  | nil =>
    intro l2 i h1 h2
    simp at h1
  | cons a t ih =>
    intro l2 i h1 h2
    cases l2 with
    | nil => simp at h2
    | cons b u =>
      cases i with
      | zero => simp
      | succ n =>
        simp only [List.zipWith_cons_cons, List.getD_cons_succ]
        have h1' : n < t.length := by simp at h1; omega
        have h2' : n < u.length := by simp at h2; omega
        exact ih u n h1' h2'

/-- Claim C3: the style harvest returns the inline style texts in document
order followed by the link task results in document order; a link whose task
resolves to the empty string (cross-origin, missing href, HTTP failure or
thrown fetch) contributes nothing to the result and does not disturb the
position of the others, the harvested suffix is an order-preserving
selection of the link results, and for inline `A`, successful link `B` and
failing link `C` the result is `["A", "B"]` — the harvest is total and never
fails. -/
theorem extract_styles_order :
    (∀ (ts : List String) (pre post : List FetchOutcome) (f : FetchOutcome),
        linkCss f = "" →
        extractStylesFromDoc ts (pre ++ f :: post)
          = extractStylesFromDoc ts (pre ++ post))
    ∧ (∀ (ts : List String) (links : List FetchOutcome),
        ∃ ext, extractStylesFromDoc ts links = ts ++ ext
          ∧ List.Sublist ext (links.map linkCss))
    ∧ extractStylesFromDoc ["A"] [FetchOutcome.fetched "B", FetchOutcome.fetchFailed]
      = ["A", "B"] := by
  refine ⟨?_, ?_, by rfl⟩
  · intro ts pre post f hf
    unfold extractStylesFromDoc
    rw [List.map_append, List.map_append, List.map_cons, List.filter_append,
      List.filter_append, List.filter_cons, hf]
    simp
  · intro ts links
    exact ⟨_, rfl, List.filter_sublist _⟩

/-- Witness for C3: dropping the failing stylesheet task does not change the
harvest of inline `A` with links `B` (fetched) and `C` (failed). -/
theorem extract_styles_order_wit :
    extractStylesFromDoc ["A"]
        ([FetchOutcome.fetched "B"] ++ FetchOutcome.fetchFailed :: [])
      = extractStylesFromDoc ["A"] ([FetchOutcome.fetched "B"] ++ []) :=
  extract_styles_order.1 ["A"] [FetchOutcome.fetched "B"] [] FetchOutcome.fetchFailed rfl

/-- Claim C6: `materializeFormValues` pairs the i-th source control with the
i-th clone control in traversal order and stops at the shorter length
without error (the paired prefix is rewritten by `materializeOne`, the rest
of the clone is untouched, the result keeps the clone's length); for
checkbox/radio controls the `checked` boolean is copied as both live
property and serialized attribute; a checkbox checked in the source but
unchecked in the raw clone is checked in the clone afterwards; and for a
three-option select with option 2 selected in the source, exactly option 2
is marked selected (property and attribute) in the clone. -/
theorem materialize_spec :
    (∀ orig clone : List Ctl,
        (materializeFormValues orig clone).length = clone.length)
    ∧ (∀ (orig clone : List Ctl) (i : ℕ) (d : Ctl), i < orig.length → i < clone.length →
        (materializeFormValues orig clone).getD i d
          = materializeOne (orig.getD i d) (clone.getD i d))
    ∧ (∀ (orig clone : List Ctl) (i : ℕ) (d : Ctl), orig.length ≤ i →
        (materializeFormValues orig clone).getD i d = clone.getD i d)
    ∧ (∀ o c : Ctl, o.tag = CtlTag.input →
        (effType o = "checkbox" ∨ effType o = "radio") →
        (materializeOne o c).checkedProp = o.checkedProp
          ∧ (materializeOne o c).checkedAttr = o.checkedProp)
    ∧ ((materializeOne srcCheckbox rawCloneCheckbox).checkedProp = true
        ∧ (materializeOne srcCheckbox rawCloneCheckbox).checkedAttr = true)
    ∧ (materializeOne srcSelect rawCloneSelect).options
        = [{ value := "low", selectedProp := false, selectedAttr := false },
           { value := "medium", selectedProp := true, selectedAttr := true },
           { value := "high", selectedProp := false, selectedAttr := false }] := by
  refine ⟨?_, ?_, ?_, ?_, by constructor <;> rfl, by rfl⟩
  · intro orig clone
    simp [materializeFormValues]
    omega
  · intro orig clone i d h1 h2
    unfold materializeFormValues
    rw [List.getD_append _ _ d i (by rw [List.length_zipWith]; omega)]
    exact getD_zipWith materializeOne d d d orig clone i h1 h2
  · intro orig clone i d h
    unfold materializeFormValues
    rcases Nat.lt_or_ge i clone.length with hc | hc
    · rw [List.getD_append_right _ _ d i (by rw [List.length_zipWith]; omega)]
      rw [List.length_zipWith]
      have hmin : min orig.length clone.length = orig.length := by omega
      rw [hmin, getD_drop]
      have harith : orig.length + (i - orig.length) = i := by omega
      rw [harith]
    · rw [List.getD_eq_default _ d
        (by simp [List.length_zipWith]; omega), List.getD_eq_default clone d hc]
  · intro o c htag htype
    have hm : materializeOne o c
        = { c with checkedProp := o.checkedProp, checkedAttr := o.checkedProp } := by
      unfold materializeOne
      rw [htag]
      exact if_pos htype
    rw [hm]
    exact ⟨rfl, rfl⟩

/-- Witness for C6 at the concrete checkbox pair. -/
theorem materialize_spec_wit :
    (materializeFormValues [srcCheckbox] [rawCloneCheckbox]).getD 0 srcCheckbox
      = materializeOne srcCheckbox rawCloneCheckbox :=
  materialize_spec.2.1 [srcCheckbox] [rawCloneCheckbox] 0 srcCheckbox
    (by simp) (by simp)

/-- Claim C8: in the canvas-copy batch, each paired position's outcome
depends only on its own extraction: a failing canvas (`toDataURL` throws) is
skipped — its clone node stays a canvas — while every other paired canvas is
still replaced by an image node with its data URL; the batch is total (never
aborts) and keeps the clone's length.  Concretely, with the middle of three
canvases failing, canvases 1 and 3 still become images. -/
theorem canvas_batch_isolated :
    (∀ (orig : List (Option String)) (clone : List String),
        (copyCanvasBitmaps orig clone).length = clone.length)
    ∧ (∀ (orig : List (Option String)) (clone : List String) (i : ℕ) (d : SnapNode),
        i < orig.length → i < clone.length → orig.getD i none = none →
        (copyCanvasBitmaps orig clone).getD i d
          = SnapNode.canvasNode (clone.getD i ""))
    ∧ (∀ (orig : List (Option String)) (clone : List String) (i : ℕ) (d : SnapNode)
        (u : String), i < orig.length → i < clone.length → orig.getD i none = some u →
        (copyCanvasBitmaps orig clone).getD i d = SnapNode.imgNode u)
    ∧ copyCanvasBitmaps [some "data:u1", none, some "data:u3"] ["c1", "c2", "c3"]
      = [SnapNode.imgNode "data:u1", SnapNode.canvasNode "c2",
         SnapNode.imgNode "data:u3"] := by
  refine ⟨?_, ?_, ?_, by rfl⟩
  · intro orig clone
    simp [copyCanvasBitmaps]
    omega
  · intro orig clone i d h1 h2 horig
    unfold copyCanvasBitmaps
    rw [List.getD_append _ _ d i (by rw [List.length_zipWith]; omega)]
    rw [getD_zipWith _ none "" d orig clone i h1 h2, horig]
  · intro orig clone i d u h1 h2 horig
    unfold copyCanvasBitmaps
    rw [List.getD_append _ _ d i (by rw [List.length_zipWith]; omega)]
    rw [getD_zipWith _ none "" d orig clone i h1 h2, horig]

/-- Witness for C8 at a concrete failing canvas. -/
theorem canvas_batch_isolated_wit :
    (copyCanvasBitmaps [none] ["c1"]).getD 0 (SnapNode.canvasNode "x")
      = SnapNode.canvasNode "c1" :=
  canvas_batch_isolated.2.1 [none] ["c1"] 0 (SnapNode.canvasNode "x")
    (by simp) (by simp) rfl

/-- Claim C9: once an iframe's saved original-height marker holds a non-empty
value, a repeated `adjustSubframeHeightsForPrint` does not overwrite it (the
guard `if (!f.dataset.originalHeight)` is false), so after preparing twice
from a fresh frame with a non-empty inline height,
`restoreSubframeHeights` restores exactly the height in effect before the
first preparation. -/
theorem saved_height_stable :
    (∀ (f : Frame) (h : ℕ) (s : String), f.originalHeight = some s → s ≠ "" →
        (adjustFrame h f).originalHeight = some s)
    ∧ (∀ (f : Frame) (h1 h2 : ℕ), f.originalHeight = none → f.styleHeight ≠ "" →
        restoreFrame (adjustFrame h2 (adjustFrame h1 f))
          = { styleHeight := f.styleHeight, originalHeight := none }) := by
  constructor
  · intro f h s hs hne
    simp [adjustFrame, jsTruthy, hs, hne]
  · intro f h1 h2 hn hne
    simp [adjustFrame, restoreFrame, jsTruthy, hn, hne]

/-- Witness for C9: a frame whose pre-print height is `240px` is restored to
`240px` after two preparations with measured heights 800 and 900. -/
theorem saved_height_stable_wit :
    restoreFrame (adjustFrame 900 (adjustFrame 800
        { styleHeight := "240px", originalHeight := none }))
      = { styleHeight := "240px", originalHeight := none } :=
  saved_height_stable.2 { styleHeight := "240px", originalHeight := none } 800 900 rfl
    (by decide)

end PrintDemo
